import Mathlib

/-!
Shallow embedding of the deno-memoizy library (src/mod.ts and src/fp.ts).

The memoizer wraps a function `fn` together with a pluggable cache.  JavaScript
promises are modelled explicitly: each invocation of `fn` that produces an
eventual (promise) result allocates a fresh promise identifier and records the
promise's eventual outcome in a registry; deferred continuation work (the
`.then` chains of the source) is modelled as an explicit queue of deferred
tasks executed by `settle`.  Timers scheduled with `setTimeout` are recorded in
a timer list together with their firing deadline.
-/

deriving instance DecidableEq for Except

namespace Memoizy

/-- A value as it can appear in the cache or be returned to the caller:
an immediate value, a promise object (identified by its id), or the
JavaScript `undefined`. -/
inductive CVal (α : Type) where
  | v : α → CVal α
  | p : Nat → CVal α
  | undef : CVal α
deriving DecidableEq, Repr

/-- What the wrapped function produces on a given argument tuple: an immediate
value, or a promise whose eventual outcome is a resolution or a rejection. -/
inductive FnRet (α : Type) where
  | val : α → FnRet α
  | promise : Except String α → FnRet α

/-- Result of the cache's `has` operation: a synchronous boolean, or a promise
that eventually resolves to a boolean (`has(key)` may be async). -/
inductive HasRet where
  | sync : Bool → HasRet
  | async : Bool → HasRet
deriving DecidableEq, Repr

/-- The cache capability contract consumed by the memoizer
(`GenericCache` / `CacheWithTimer` in src/mod.ts): `set` receives an optional
third expiration argument (`none` models the two-argument call). -/
structure CacheImpl (σ : Type) (α : Type) where
  has : σ → String → HasRet
  get : σ → String → Option (CVal α)
  set : σ → String → CVal α → Option Int → σ
  del : σ → String → σ × Bool
  clr : Option (σ → σ)

/-- The options of `memoizy` after defaulting (`cache`, `maxAge`, `cacheKey`,
`valueAccept`, `cacheHandlesExpiration`).  `maxAge = none` models `Infinity`
(the default); `valueAccept` may throw, modelled by `Except.error`. -/
structure Opts (σ ι α : Type) where
  impl : CacheImpl σ α
  maxAge : Option Int
  cacheKey : ι → String
  valueAccept : Option (Option String → Option α → Except String Bool)
  cacheHandlesExpiration : Bool

/-- A memoized-function instance: the resolved options together with the
wrapped function (the closure created by `memoizy(fn, opt)`). -/
structure Config (σ ι α : Type) where
  impl : CacheImpl σ α
  maxAge : Option Int
  cacheKey : ι → String
  valueAccept : Option (Option String → Option α → Except String Bool)
  cacheHandlesExpiration : Bool
  fn : ι → FnRet α

/-- `memoizy fn opt` builds the memoized instance (src/mod.ts `memoizy`). -/
def memoizy {σ ι α : Type} (fn : ι → FnRet α) (o : Opts σ ι α) : Config σ ι α :=
  { impl := o.impl
    maxAge := o.maxAge
    cacheKey := o.cacheKey
    valueAccept := o.valueAccept
    cacheHandlesExpiration := o.cacheHandlesExpiration
    fn := fn }

/-- Full mutable state of one memoized instance: the cache backend state, the
pending `setTimeout` deletions (deadline, key), the current time, the number of
invocations of the wrapped function, the next fresh promise id and the registry
of promise outcomes. -/
structure St (σ α : Type) where
  cacheSt : σ
  timers : List (Int × String)
  now : Int
  fnCount : Nat
  nextPid : Nat
  proms : List (Nat × Except String α)
deriving DecidableEq

/-- A fresh state around a cache backend's initial state. -/
def freshSt {σ α : Type} (c0 : σ) : St σ α :=
  { cacheSt := c0, timers := [], now := 0, fnCount := 0, nextPid := 0, proms := [] }

/-- `hasExpireDate` of src/mod.ts: `maxAge > 0 && maxAge < Infinity`. -/
def hasExpireDate (maxAge : Option Int) : Bool :=
  match maxAge with
  | some n => decide (0 < n)
  | none => false

/-- The internal `set` of src/mod.ts: with cache-handled expiration and a
finite positive `maxAge` the cache's `set` receives the expiration as third
argument; otherwise a deletion timer is scheduled when `maxAge` is finite
positive, and the cache's `set` is called without expiration argument. -/
def setOp {σ ι α : Type} (cfg : Config σ ι α) (st : St σ α) (key : String)
    (value : CVal α) : St σ α :=
  if cfg.cacheHandlesExpiration && hasExpireDate cfg.maxAge then
    { st with cacheSt := cfg.impl.set st.cacheSt key value cfg.maxAge }
  else
    let st1 :=
      if hasExpireDate cfg.maxAge then
        { st with timers := st.timers ++ [(st.now + cfg.maxAge.getD 0, key)] }
      else st
    { st1 with cacheSt := cfg.impl.set st1.cacheSt key value none }

/-- Invoking the wrapped function: an immediate result is returned as a value;
an eventual result allocates a fresh promise id and records its outcome. -/
def invokeFn {σ ι α : Type} (cfg : Config σ ι α) (st : St σ α) (args : ι) :
    CVal α × St σ α :=
  match cfg.fn args with
  | FnRet.val a => (CVal.v a, { st with fnCount := st.fnCount + 1 })
  | FnRet.promise out =>
      (CVal.p st.nextPid,
       { st with
          fnCount := st.fnCount + 1
          nextPid := st.nextPid + 1
          proms := st.proms ++ [(st.nextPid, out)] })

/-- Deferred tasks: the `.then` chain that feeds `valueAccept` once a promise
produced by the wrapped function settles, and the `.then` continuation of an
asynchronous existence check. -/
inductive Deferred (ι α : Type) where
  | acceptSettle : String → Nat → Deferred ι α
  | onExist : Bool → String → ι → Deferred ι α

/-- What a call to the memoized function produces once the synchronous part
ran: either a returned value (possibly a promise object), or a synchronously
propagated exception. -/
inductive CallRes (α : Type) where
  | ret : CVal α → CallRes α
  | thrown : String → CallRes α
deriving DecidableEq, Repr

/-- The overall shape of `memoized(...args)`: `now r` when the existence check
was synchronous (the call completes synchronously with result `r`), `later`
when the existence check returned a promise, so the memoized call itself
returns a promise. -/
inductive MemoRet (α : Type) where
  | now : CallRes α → MemoRet α
  | later : MemoRet α
deriving DecidableEq, Repr

/-- `undefined` for an absent `get` result (the source casts `cache.get(key)`
to `TResult`). -/
def getOrUndef {α : Type} : Option (CVal α) → CVal α
  | some w => w
  | none => CVal.undef

/-- `onExistenceChecked` of src/mod.ts.  On a hit the cached value is returned
verbatim.  On a miss the wrapped function is invoked; with no `valueAccept`
the produced value (promise included) is stored immediately; with a
`valueAccept` a promise defers the decision to a `.then` chain, while an
immediate value consults the predicate synchronously (a throwing predicate
propagates instead of returning). -/
def onExistenceChecked {σ ι α : Type} (cfg : Config σ ι α) (st : St σ α)
    (ex : Bool) (key : String) (args : ι) :
    CallRes α × St σ α × List (Deferred ι α) :=
  if ex then
    (CallRes.ret (getOrUndef (cfg.impl.get st.cacheSt key)), st, [])
  else
    let va := invokeFn cfg st args
    match cfg.valueAccept with
    | none => (CallRes.ret va.1, setOp cfg va.2 key va.1, [])
    | some accept =>
      match va.1 with
      | CVal.p pid => (CallRes.ret (CVal.p pid), va.2, [Deferred.acceptSettle key pid])
      | CVal.v a =>
        match accept none (some a) with
        | Except.ok true => (CallRes.ret (CVal.v a), setOp cfg va.2 key (CVal.v a), [])
        | Except.ok false => (CallRes.ret (CVal.v a), va.2, [])
        | Except.error e => (CallRes.thrown e, va.2, [])
      | CVal.undef =>
        match accept none none with
        | Except.ok true => (CallRes.ret CVal.undef, setOp cfg va.2 key CVal.undef, [])
        | Except.ok false => (CallRes.ret CVal.undef, va.2, [])
        | Except.error e => (CallRes.thrown e, va.2, [])

/-- `memoized(...args)` of src/mod.ts: derive the key, query existence; a
synchronous existence check runs `onExistenceChecked` at once, an asynchronous
one returns a promise and defers `onExistenceChecked`. -/
def memoizedCall {σ ι α : Type} (cfg : Config σ ι α) (st : St σ α) (args : ι) :
    MemoRet α × St σ α × List (Deferred ι α) :=
  let key := cfg.cacheKey args
  match cfg.impl.has st.cacheSt key with
  | HasRet.sync b =>
    let r := onExistenceChecked cfg st b key args
    (MemoRet.now r.1, r.2.1, r.2.2)
  | HasRet.async b => (MemoRet.later, st, [Deferred.onExist b key args])

/-- Look up a promise outcome in the registry. -/
def lookupProm {α : Type} (l : List (Nat × Except String α)) (pid : Nat) :
    Option (Except String α) :=
  (l.find? (fun e => decide (e.1 = pid))).map Prod.snd

/-- The deferred `.then` chain of the `valueAccept` branch: once the promise
settles, feed `(err, res)` to the predicate and store the resolved value on
acceptance (`res` is `undefined` when the promise rejected).  A predicate that
throws here only fails the deferred task; the state is unchanged. -/
def runAccept {σ ι α : Type} (cfg : Config σ ι α) (st : St σ α) (key : String)
    (pid : Nat) : St σ α :=
  match cfg.valueAccept with
  | none => st
  | some accept =>
    match lookupProm st.proms pid with
    | none => st
    | some (Except.ok res) =>
      match accept none (some res) with
      | Except.ok true => setOp cfg st key (CVal.v res)
      | _ => st
    | some (Except.error e) =>
      match accept (some e) none with
      | Except.ok true => setOp cfg st key CVal.undef
      | _ => st

/-- Run one deferred task.  The continuation of an asynchronous existence check
runs `onExistenceChecked` and then any `valueAccept` chain it spawned. -/
def runTask {σ ι α : Type} (cfg : Config σ ι α) (st : St σ α) :
    Deferred ι α → St σ α
  | Deferred.acceptSettle key pid => runAccept cfg st key pid
  | Deferred.onExist b key args =>
    let r := onExistenceChecked cfg st b key args
    r.2.2.foldl
      (fun s d =>
        match d with
        | Deferred.acceptSettle k pid => runAccept cfg s k pid
        | _ => s)
      r.2.1

/-- Let all deferred work settle. -/
def settle {σ ι α : Type} (cfg : Config σ ι α) (st : St σ α)
    (ds : List (Deferred ι α)) : St σ α :=
  ds.foldl (runTask cfg) st

/-- One call to the memoized function, allowed to fully settle. -/
def callAndSettle {σ ι α : Type} (cfg : Config σ ι α) (st : St σ α) (args : ι) :
    MemoRet α × St σ α :=
  let r := memoizedCall cfg st args
  (r.1, settle cfg r.2.1 r.2.2)

/-- `memoized.delete(...args)` of src/mod.ts. -/
def memoizedDelete {σ ι α : Type} (cfg : Config σ ι α) (st : St σ α) (args : ι) :
    St σ α × Bool :=
  let r := cfg.impl.del st.cacheSt (cfg.cacheKey args)
  ({ st with cacheSt := r.1 }, r.2)

/-- `memoized.clear()` of src/mod.ts: delegates to the cache's `clear` when it
is a function, otherwise throws an unsupported-operation error (returned as
`some` message) leaving the state untouched. -/
def memoizedClear {σ ι α : Type} (cfg : Config σ ι α) (st : St σ α) :
    St σ α × Option String :=
  match cfg.impl.clr with
  | some f => ({ st with cacheSt := f st.cacheSt }, none)
  | none => (st, some "This cache does not support clear")

/-- A `setTimeout` callback firing: `cache.delete(key)` on whatever is present
under that key at that time. -/
def fireTimer {σ ι α : Type} (cfg : Config σ ι α) (st : St σ α) (key : String) :
    St σ α :=
  { st with cacheSt := (cfg.impl.del st.cacheSt key).1 }

/-! ### The default cache: a JavaScript `Map`, modelled as an association list -/

/-- Backend state of the default `Map` cache. -/
abbrev MapSt (α : Type) : Type := List (String × CVal α)

/-- `Map.prototype.has`. -/
def mapHas {α : Type} (s : MapSt α) (k : String) : Bool :=
  s.any (fun e => decide (e.1 = k))

/-- `Map.prototype.get`. -/
def mapGet {α : Type} (s : MapSt α) (k : String) : Option (CVal α) :=
  (s.find? (fun e => decide (e.1 = k))).map Prod.snd

/-- `Map.prototype.set`: replaces any entry under the key. -/
def mapSet {α : Type} (s : MapSt α) (k : String) (w : CVal α) : MapSt α :=
  (s.filter (fun e => decide (¬ e.1 = k))) ++ [(k, w)]

/-- `Map.prototype.delete`. -/
def mapDel {α : Type} (s : MapSt α) (k : String) : MapSt α × Bool :=
  ((s.filter (fun e => decide (¬ e.1 = k))), s.any (fun e => decide (e.1 = k)))

/-- The default cache factory `() => new Map()` as a `CacheImpl`: `has` is
synchronous, `set` ignores the (never supplied) expiration argument, `clear`
is present and empties the map. -/
def mapCache (α : Type) : CacheImpl (MapSt α) α :=
  { has := fun s k => HasRet.sync (mapHas s k)
    get := mapGet
    set := fun s k w _ => mapSet s k w
    del := mapDel
    clr := some (fun _ => []) }

/-- A `Map`-backed cache whose existence check is asynchronous (`has` returns
a promise), as permitted by `GenericCache.has`. -/
def asyncMapCache (α : Type) : CacheImpl (MapSt α) α :=
  { has := fun s k => HasRet.async (mapHas s k)
    get := mapGet
    set := fun s k w _ => mapSet s k w
    del := mapDel
    clr := some (fun _ => []) }

/-- The defaults of `memoizy` (src/mod.ts lines 84-90) with the default `Map`
cache, no expiration, no acceptance predicate and memoizer-side expiration,
over a caller-supplied key function. -/
def defaultOpts {ι α : Type} (ck : ι → String) : Opts (MapSt α) ι α :=
  { impl := mapCache α
    maxAge := none
    cacheKey := ck
    valueAccept := none
    cacheHandlesExpiration := false }

/-! ### The default cache-key builder (`defaultCacheKeyBuilder`) -/

mutual
/-- A JavaScript value as it can appear among the call arguments, for the
purpose of `JSON.stringify`: numbers, strings, booleans and arrays
(mutually with `JArr`, the arrays of such values). -/
inductive JVal where
  | jnum : Int → JVal
  | jstr : String → JVal
  | jbool : Bool → JVal
  | jarr : JArr → JVal
inductive JArr where
  | nil : JArr
  | cons : JVal → JArr → JArr
end

/-- Number of elements of a `JArr` (the `length` of the argument array). -/
def JArr.length : JArr → Nat
  | JArr.nil => 0
  | JArr.cons _ xs => 1 + JArr.length xs

mutual
/-- `JSON.stringify` on a `JVal` (canonical structural, order-preserving,
whitespace-free encoding), mutually with the comma-separated rendering of an
array's elements. -/
def jsonStringify : JVal → String
  | JVal.jnum n => toString n
  | JVal.jstr s => "\x22" ++ s ++ "\x22"
  | JVal.jbool b => if b then "true" else "false"
  | JVal.jarr xs => "[" ++ jsonStringifyArr xs ++ "]"
def jsonStringifyArr : JArr → String
  | JArr.nil => ""
  | JArr.cons x JArr.nil => jsonStringify x
  | JArr.cons x (JArr.cons y ys) =>
      jsonStringify x ++ "," ++ jsonStringifyArr (JArr.cons y ys)
end

/-- `defaultCacheKeyBuilder` of src/mod.ts:
`args.length === 0 ? "__0aritykey__" : JSON.stringify(args)`. -/
def defaultCacheKeyBuilder (args : JArr) : String :=
  if args.length = 0 then "__0aritykey__" else jsonStringify (JVal.jarr args)

/-! ### The curried adapter (src/fp.ts) -/

/-- An argument passed through the `fp` adapter: either the options object or
the function to memoize. -/
inductive FpArg (σ ι α : Type) where
  | opts : Opts σ ι α → FpArg σ ι α
  | func : (ι → FnRet α) → FpArg σ ι α

/-- The outcome of `curry` applied to the two-parameter target
`(options, fn) => memoizy(fn, options)`: either the memoized instance, or a
bound closure still awaiting arguments. -/
inductive CurryOut (σ ι α : Type) where
  | result : Config σ ι α → CurryOut σ ι α
  | closure : List (FpArg σ ι α) → CurryOut σ ι α

/-- `curry(fn, ...args)` of src/fp.ts specialised to the target of arity 2:
with at least two accumulated arguments the target is applied to the first two
(a dynamic type error when they are not options-then-function); with fewer,
a closure retaining the accumulated arguments is returned. -/
def curryApply {σ ι α : Type} (args : List (FpArg σ ι α)) :
    Option (CurryOut σ ι α) :=
  if 2 ≤ args.length then
    match args with
    | FpArg.opts o :: FpArg.func f :: _ => some (CurryOut.result (memoizy f o))
    | _ => none
  else some (CurryOut.closure args)

/-- Invoking a curried closure with further arguments appends them to the
retained ones and re-enters `curry`. -/
def curryInvoke {σ ι α : Type} :
    CurryOut σ ι α → List (FpArg σ ι α) → Option (CurryOut σ ι α)
  | CurryOut.closure pending, more => curryApply (pending ++ more)
  | CurryOut.result _, _ => none

/-- `fp(...args)` of src/fp.ts: delegates to the curried target. -/
def fp {σ ι α : Type} (args : List (FpArg σ ι α)) : Option (CurryOut σ ι α) :=
  curryApply args

/-! ### Helper abbreviations for the correctness statements -/

/-- The first call to a `Map`-backed memoized function on a fresh instance,
allowed to fully settle. -/
def firstCall {ι α : Type} (cfg : Config (MapSt α) ι α) (args : ι) :
    MemoRet α × St (MapSt α) α :=
  callAndSettle cfg (freshSt []) args

/-- The second call with the same arguments, after the first settled. -/
def secondCall {ι α : Type} (cfg : Config (MapSt α) ι α) (args : ι) :
    MemoRet α × St (MapSt α) α :=
  callAndSettle cfg (firstCall cfg args).2 args

/-- The default options with an acceptance predicate installed. -/
def withAccept {ι α : Type} (ck : ι → String)
    (accept : Option String → Option α → Except String Bool) :
    Opts (MapSt α) ι α :=
  { defaultOpts ck with valueAccept := some accept }

/-- A constant key function over unit arguments, for concrete instances. -/
def ckU : Unit → String := fun _ => "k"

/-- Concrete instance: default options, wrapped function returns a promise
that rejects. -/
def rejCfg : Config (MapSt Nat) Unit Nat :=
  memoizy (fun _ => FnRet.promise (Except.error "boom")) (defaultOpts ckU)

/-- Concrete instance: accept-everything predicate, wrapped function returns a
promise resolving to `42`. -/
def accCfg : Config (MapSt Nat) Unit Nat :=
  memoizy (fun _ => FnRet.promise (Except.ok 42))
    (withAccept ckU (fun _ _ => Except.ok true))

/-! ### The claims -/

/-- Claim C1: on a fresh default-configured memoized function, calling it with
an argument tuple and letting it settle, then calling again with the same
tuple, invokes the wrapped function exactly once across the two calls, and the
second call returns the same value as the first. -/
theorem claim_C1 {α ι : Type} (fn : ι → FnRet α) (ck : ι → String) (args : ι) :
    (firstCall (memoizy fn (defaultOpts ck)) args).2.fnCount = 1
    ∧ (secondCall (memoizy fn (defaultOpts ck)) args).1
        = (firstCall (memoizy fn (defaultOpts ck)) args).1
    ∧ (secondCall (memoizy fn (defaultOpts ck)) args).2.fnCount = 1 := by
  cases h : fn args <;>
    simp [firstCall, secondCall, callAndSettle, memoizedCall, onExistenceChecked,
      invokeFn, setOp, settle, memoizy, defaultOpts, mapCache, mapHas, mapGet, mapSet,
      freshSt, hasExpireDate, getOrUndef, h]

/-- Claim C2 counterexample: with no acceptance predicate and a wrapped
function whose promise rejects, after the first call settles the rejected
promise IS stored in the cache, and the second call with the same arguments is
a cache hit that does not re-invoke the wrapped function (the invocation count
stays at one), contradicting the claimed never-stored / re-invoke behaviour. -/
theorem claim_C2_cex :
    mapGet (firstCall rejCfg ()).2.cacheSt "k" = some (CVal.p 0)
    ∧ lookupProm (firstCall rejCfg ()).2.proms 0 = some (Except.error "boom")
    ∧ (secondCall rejCfg ()).1 = MemoRet.now (CallRes.ret (CVal.p 0))
    ∧ (secondCall rejCfg ()).2.fnCount = 1 := by
  refine ⟨rfl, rfl, rfl, rfl⟩

/-- Claim C2 (amended): when no acceptance predicate is configured and the
wrapped function returns an eventual result that rejects, the promise is
stored in the cache immediately at call time regardless of its later
rejection; the rejection propagates to the caller through the returned
promise, and a subsequent call with the same arguments observes a cache hit
and returns the same promise without re-invoking the wrapped function. -/
theorem claim_C2 {α ι : Type} (fn : ι → FnRet α) (ck : ι → String) (args : ι)
    (e : String) (h : fn args = FnRet.promise (Except.error e)) :
    (firstCall (memoizy fn (defaultOpts ck)) args).1
      = MemoRet.now (CallRes.ret (CVal.p 0))
    ∧ lookupProm (firstCall (memoizy fn (defaultOpts ck)) args).2.proms 0
        = some (Except.error e)
    ∧ mapGet (firstCall (memoizy fn (defaultOpts ck)) args).2.cacheSt (ck args)
        = some (CVal.p 0)
    ∧ (secondCall (memoizy fn (defaultOpts ck)) args).1
        = MemoRet.now (CallRes.ret (CVal.p 0))
    ∧ (secondCall (memoizy fn (defaultOpts ck)) args).2.fnCount = 1 := by
  simp [firstCall, secondCall, callAndSettle, memoizedCall, onExistenceChecked,
    invokeFn, setOp, settle, memoizy, defaultOpts, mapCache, mapHas, mapGet, mapSet,
    freshSt, hasExpireDate, getOrUndef, lookupProm, h]

/-- Claim C2 amended, witnessed at the concrete rejecting instance. -/
theorem claim_C2_witness :
    (firstCall rejCfg ()).1 = MemoRet.now (CallRes.ret (CVal.p 0))
    ∧ lookupProm (firstCall rejCfg ()).2.proms 0 = some (Except.error "boom")
    ∧ mapGet (firstCall rejCfg ()).2.cacheSt (ckU ())
        = some (CVal.p 0)
    ∧ (secondCall rejCfg ()).1 = MemoRet.now (CallRes.ret (CVal.p 0))
    ∧ (secondCall rejCfg ()).2.fnCount = 1 :=
  claim_C2 (fun _ => FnRet.promise (Except.error "boom")) ckU () "boom" rfl

/-- Claim C3 counterexample: with an accept-everything predicate and a wrapped
function returning a promise that resolves to `42`, the call returns the
promise object but the value cached after settling is the resolved value `42`
— a derived representation, not the promise the wrapped function returned. -/
theorem claim_C3_cex :
    (firstCall accCfg ()).1 = MemoRet.now (CallRes.ret (CVal.p 0))
    ∧ mapGet (firstCall accCfg ()).2.cacheSt "k" = some (CVal.v 42)
    ∧ (CVal.v 42 : CVal Nat) ≠ CVal.p 0 := by
  refine ⟨rfl, rfl, by decide⟩

/-- Claim C3 (amended): with no acceptance predicate configured, the cached
value is exactly the value the wrapped function returned for those arguments
(the promise itself when it returned a promise); with an acceptance predicate
configured and an eventual result that resolves to a value the predicate
accepts, the cached value is the resolved value, not the promise. -/
theorem claim_C3 {α ι : Type} (fn : ι → FnRet α) (ck : ι → String) (args : ι) :
    (∃ w, (firstCall (memoizy fn (defaultOpts ck)) args).1
        = MemoRet.now (CallRes.ret w)
      ∧ mapGet (firstCall (memoizy fn (defaultOpts ck)) args).2.cacheSt (ck args)
          = some w)
    ∧ ∀ (accept : Option String → Option α → Except String Bool) (a : α),
        fn args = FnRet.promise (Except.ok a) →
        accept none (some a) = Except.ok true →
        (firstCall (memoizy fn (withAccept ck accept)) args).1
            = MemoRet.now (CallRes.ret (CVal.p 0))
          ∧ mapGet (firstCall (memoizy fn (withAccept ck accept)) args).2.cacheSt
              (ck args) = some (CVal.v a) := by
  constructor
  · cases h : fn args with
    | val a =>
      refine ⟨CVal.v a, ?_, ?_⟩ <;>
        simp [firstCall, callAndSettle, memoizedCall, onExistenceChecked, invokeFn,
          setOp, settle, memoizy, defaultOpts, mapCache, mapHas, mapGet, mapSet,
          freshSt, hasExpireDate, h]
    | promise out =>
      refine ⟨CVal.p 0, ?_, ?_⟩ <;>
        simp [firstCall, callAndSettle, memoizedCall, onExistenceChecked, invokeFn,
          setOp, settle, memoizy, defaultOpts, mapCache, mapHas, mapGet, mapSet,
          freshSt, hasExpireDate, h]
  · intro accept a hfn hacc
    simp [firstCall, callAndSettle, memoizedCall, onExistenceChecked, invokeFn,
      setOp, settle, runTask, runAccept, lookupProm, memoizy, defaultOpts, withAccept,
      mapCache, mapHas, mapGet, mapSet, freshSt, hasExpireDate, hfn, hacc]

/-- Claim C3 amended, witnessed at the concrete accept-everything instance. -/
theorem claim_C3_witness :
    (∃ w, (firstCall (memoizy (fun _ => FnRet.promise (Except.ok 42))
            (defaultOpts ckU)) ()).1 = MemoRet.now (CallRes.ret w)
      ∧ mapGet (firstCall (memoizy (fun _ => FnRet.promise (Except.ok (42 : Nat)))
            (defaultOpts ckU)) ()).2.cacheSt (ckU ()) = some w)
    ∧ ((firstCall accCfg ()).1 = MemoRet.now (CallRes.ret (CVal.p 0))
      ∧ mapGet (firstCall accCfg ()).2.cacheSt (ckU ()) = some (CVal.v 42)) :=
  ⟨(claim_C3 (fun _ => FnRet.promise (Except.ok 42)) ckU ()).1,
   (claim_C3 (fun _ => FnRet.promise (Except.ok 42)) ckU ()).2
     (fun _ _ => Except.ok true) 42 rfl rfl⟩

/-- Claim C10: with an acceptance predicate configured, a synchronous cache
miss, and a wrapped function returning an immediate value on which the
predicate throws, the memoized call propagates the exception (the value is not
returned) and the state changes only by the recorded invocation: in particular
the cache state and the timers are unchanged, so nothing was stored. -/
theorem claim_C10 {σ ι α : Type} (cfg : Config σ ι α) (st : St σ α) (args : ι)
    (accept : Option String → Option α → Except String Bool) (a : α) (e : String)
    (hhas : cfg.impl.has st.cacheSt (cfg.cacheKey args) = HasRet.sync false)
    (hacc : cfg.valueAccept = some accept)
    (hfn : cfg.fn args = FnRet.val a)
    (hthrow : accept none (some a) = Except.error e) :
    memoizedCall cfg st args
      = (MemoRet.now (CallRes.thrown e), { st with fnCount := st.fnCount + 1 }, []) := by
  simp [memoizedCall, onExistenceChecked, invokeFn, hhas, hacc, hfn, hthrow]

/-- Concrete instance for C10: a predicate that always throws over an
immediate-value function. -/
def throwCfg : Config (MapSt Nat) Unit Nat :=
  memoizy (fun _ => FnRet.val 7)
    (withAccept ckU (fun _ _ => Except.error "predicate failed"))

/-- Claim C10, witnessed at the concrete throwing-predicate instance. -/
theorem claim_C10_witness :
    memoizedCall throwCfg (freshSt []) ()
      = (MemoRet.now (CallRes.thrown "predicate failed"),
         { freshSt ([] : MapSt Nat) with fnCount := 1 }, []) :=
  claim_C10 throwCfg (freshSt []) () (fun _ _ => Except.error "predicate failed")
    7 "predicate failed" rfl rfl rfl rfl

/-- Claim C4: when the existence check answers synchronously the memoized call
completes synchronously (its result is the immediate `onExistenceChecked`
outcome, and on a miss with no predicate it has exactly the immediate/eventual
shape the wrapped function produced); when the existence check answers with a
promise, the memoized call itself returns an eventual result, deferring
`onExistenceChecked`, even when the wrapped function is synchronous, with no
caller configuration involved in the branching. -/
theorem claim_C4 {σ ι α : Type} (cfg : Config σ ι α) (st : St σ α) (args : ι) :
    (∀ b, cfg.impl.has st.cacheSt (cfg.cacheKey args) = HasRet.sync b →
        (memoizedCall cfg st args).1
          = MemoRet.now (onExistenceChecked cfg st b (cfg.cacheKey args) args).1)
    ∧ (cfg.valueAccept = none →
        cfg.impl.has st.cacheSt (cfg.cacheKey args) = HasRet.sync false →
        (∀ a, cfg.fn args = FnRet.val a →
            (memoizedCall cfg st args).1 = MemoRet.now (CallRes.ret (CVal.v a)))
          ∧ ∀ out, cfg.fn args = FnRet.promise out →
              (memoizedCall cfg st args).1
                = MemoRet.now (CallRes.ret (CVal.p st.nextPid)))
    ∧ ∀ b, cfg.impl.has st.cacheSt (cfg.cacheKey args) = HasRet.async b →
        memoizedCall cfg st args
          = (MemoRet.later, st, [Deferred.onExist b (cfg.cacheKey args) args]) := by
  refine ⟨?_, ?_, ?_⟩
  · intro b hhas
    simp [memoizedCall, hhas]
  · intro hacc hhas
    constructor
    · intro a hfn
      simp [memoizedCall, onExistenceChecked, invokeFn, hhas, hacc, hfn]
    · intro out hfn
      simp [memoizedCall, onExistenceChecked, invokeFn, hhas, hacc, hfn]
  · intro b hhas
    simp [memoizedCall, hhas]

/-- Concrete instance for C4: synchronous `Map` cache over a synchronous
wrapped function. -/
def syncValCfg : Config (MapSt Nat) Unit Nat :=
  memoizy (fun _ => FnRet.val 5) (defaultOpts ckU)

/-- Concrete instance for C4: same wrapped function, but the cache's existence
check answers asynchronously. -/
def asyncValCfg : Config (MapSt Nat) Unit Nat :=
  memoizy (fun _ => FnRet.val 5)
    { defaultOpts ckU with impl := asyncMapCache Nat }

/-- Claim C4, witnessed: with a synchronous existence check the call completes
synchronously with the wrapped function's immediate value; with an
asynchronous existence check the same synchronous function yields an eventual
call result. -/
theorem claim_C4_witness :
    (memoizedCall syncValCfg (freshSt []) ()).1
      = MemoRet.now (CallRes.ret (CVal.v 5))
    ∧ memoizedCall asyncValCfg (freshSt []) ()
        = (MemoRet.later, freshSt [], [Deferred.onExist false "k" ()]) :=
  ⟨((claim_C4 syncValCfg (freshSt []) ()).2.1 rfl rfl).1 5 rfl,
   (claim_C4 asyncValCfg (freshSt []) ()).2.2 false rfl⟩

/-- A cache that records every `set` together with the expiration argument it
received, and exposes no bulk-clear capability. -/
def recCache (α : Type) : CacheImpl (List (String × CVal α × Option Int)) α :=
  { has := fun s k => HasRet.sync (s.any (fun e => decide (e.1 = k)))
    get := fun s k => ((s.find? (fun e => decide (e.1 = k))).map (fun e => e.2.1))
    set := fun s k w exp => s ++ [(k, w, exp)]
    del := fun s k =>
      ((s.filter (fun e => decide (¬ e.1 = k))), s.any (fun e => decide (e.1 = k)))
    clr := none }

/-- Claim C5: `clear()` on a cache lacking the bulk-clear capability returns
the unsupported-operation error and leaves the state (hence every existing
entry) exactly unchanged — it never silently no-ops; on a cache exposing
`clear` it delegates to it, and the default `Map` cache's `clear` removes
every entry. -/
theorem claim_C5 {σ ι α : Type} (cfg : Config σ ι α) (st : St σ α) :
    (cfg.impl.clr = none →
        memoizedClear cfg st = (st, some "This cache does not support clear"))
    ∧ (∀ f, cfg.impl.clr = some f →
        memoizedClear cfg st = ({ st with cacheSt := f st.cacheSt }, none))
    ∧ ∀ (s : MapSt α) (k : String),
        ∃ f, (mapCache α).clr = some f ∧ mapGet (f s) k = none := by
  refine ⟨?_, ?_, ?_⟩
  · intro h
    simp [memoizedClear, h]
  · intro f h
    simp [memoizedClear, h]
  · intro s k
    exact ⟨fun _ => [], rfl, rfl⟩

/-- Concrete instance for C5: the recording cache, which has no `clear`. -/
def noClearCfg : Config (List (String × CVal Nat × Option Int)) Unit Nat :=
  memoizy (fun _ => FnRet.val 1)
    { impl := recCache Nat
      maxAge := none
      cacheKey := ckU
      valueAccept := none
      cacheHandlesExpiration := false }

/-- Claim C5, witnessed: on the clear-less cache the error is raised and a
pre-existing entry survives untouched; on the default `Map` cache `clear`
empties the cache. -/
theorem claim_C5_witness :
    memoizedClear noClearCfg (freshSt [("k", CVal.v 1, none)])
      = (freshSt [("k", CVal.v 1, none)], some "This cache does not support clear")
    ∧ memoizedClear rejCfg (freshSt [("k", CVal.p 0)])
        = ({ freshSt ([("k", CVal.p 0)] : MapSt Nat) with cacheSt := [] }, none)
    ∧ ∃ f, (mapCache Nat).clr = some f ∧ mapGet (f [("k", CVal.p 0)]) "k" = none :=
  ⟨(claim_C5 noClearCfg (freshSt [("k", CVal.v 1, none)])).1 rfl,
   (claim_C5 rejCfg (freshSt [("k", CVal.p 0)])).2.1 (fun _ => []) rfl,
   (claim_C5 rejCfg (freshSt [("k", CVal.p 0)])).2.2 [("k", CVal.p 0)] "k"⟩

/-- Helper: after `Map.delete k` no entry is found under `k`. -/
theorem mapDel_get_none {α : Type} (s : MapSt α) (k : String) :
    mapGet (mapDel s k).1 k = none := by
  induction s with
  | nil => rfl
  | cons e t ih =>
    by_cases h : e.1 = k <;>
      simp_all [mapDel, mapGet, List.filter_cons, h]

/-- Claim C6: when the memoizer handles expiration and `maxAge` is finite
positive, every store performs the plain (no-expiration) cache `set` and
appends a deletion timer for exactly that key due `maxAge` after the moment of
storing; the timer survives both an overwrite of the entry and an explicit
`delete`; and when a timer fires it deletes whatever the `Map` cache then
holds under that key. -/
theorem claim_C6 {σ ι α : Type} (cfg : Config σ ι α) (st : St σ α) (key : String)
    (v w : CVal α) (args : ι) (n : Int)
    (hflag : cfg.cacheHandlesExpiration = false)
    (hma : cfg.maxAge = some n) (hpos : 0 < n) :
    setOp cfg st key v
      = { st with
            timers := st.timers ++ [(st.now + n, key)]
            cacheSt := cfg.impl.set st.cacheSt key v none }
    ∧ (st.now + n, key) ∈ (setOp cfg (setOp cfg st key v) key w).timers
    ∧ (memoizedDelete cfg st args).1.timers = st.timers
    ∧ ∀ (cfgm : Config (MapSt α) ι α) (stm : St (MapSt α) α) (k : String),
        cfgm.impl = mapCache α →
        mapGet (fireTimer cfgm stm k).cacheSt k = none := by
  refine ⟨?_, ?_, ?_, ?_⟩
  · simp [setOp, hasExpireDate, hflag, hma, hpos]
  · simp [setOp, hasExpireDate, hflag, hma, hpos]
  · simp [memoizedDelete]
  · intro cfgm stm k him
    simp [fireTimer, him, mapCache]
    exact mapDel_get_none stm.cacheSt k

/-- Concrete instance for C6: default `Map` cache with `maxAge = 100` and
memoizer-side expiration. -/
def timerCfg : Config (MapSt Nat) Unit Nat :=
  memoizy (fun _ => FnRet.val 1) { defaultOpts ckU with maxAge := some 100 }

/-- Claim C6, witnessed: storing schedules the `(100, "k")` deletion, an
overwrite leaves the original timer pending, `delete` leaves timers untouched,
and a firing timer empties the key. -/
theorem claim_C6_witness :
    (setOp timerCfg (freshSt []) "k" (CVal.v 1)).timers = [(100, "k")]
    ∧ (100, "k")
        ∈ (setOp timerCfg (setOp timerCfg (freshSt []) "k" (CVal.v 1)) "k"
            (CVal.v 2)).timers
    ∧ (memoizedDelete timerCfg (freshSt []) ()).1.timers = []
    ∧ mapGet (fireTimer timerCfg (freshSt [("k", CVal.v 1)]) "k").cacheSt "k"
        = none := by
  have h := claim_C6 timerCfg (freshSt []) "k" (CVal.v 1) (CVal.v 2) () 100 rfl rfl
    (by decide)
  refine ⟨?_, ?_, ?_, h.2.2.2 timerCfg (freshSt [("k", CVal.v 1)]) "k" rfl⟩
  · rw [h.1]
    rfl
  · simpa using h.2.1
  · simpa using h.2.2.1

/-- Claim C7: with cache-handled expiration and a finite positive `maxAge`,
every store invokes the cache's `set` with the expiration duration as third
argument and schedules no memoizer-side timer; when `maxAge` is non-positive
or unbounded the store passes no expiration argument and schedules no removal
(the rest of the state, timers included, is untouched). -/
theorem claim_C7 {σ ι α : Type} (cfg : Config σ ι α) (st : St σ α) (key : String)
    (v : CVal α) :
    (∀ n : Int, cfg.cacheHandlesExpiration = true → cfg.maxAge = some n → 0 < n →
        setOp cfg st key v = { st with cacheSt := cfg.impl.set st.cacheSt key v (some n) })
    ∧ (hasExpireDate cfg.maxAge = false →
        setOp cfg st key v = { st with cacheSt := cfg.impl.set st.cacheSt key v none }) := by
  constructor
  · intro n hflag hma hpos
    simp [setOp, hasExpireDate, hflag, hma, hpos]
  · intro hexp
    simp [setOp, hexp]

/-- Concrete instance for C7: recording cache, cache-handled expiration,
`maxAge = 100`. -/
def recExpCfg : Config (List (String × CVal Nat × Option Int)) Unit Nat :=
  memoizy (fun _ => FnRet.val 1)
    { impl := recCache Nat
      maxAge := some 100
      cacheKey := ckU
      valueAccept := none
      cacheHandlesExpiration := true }

/-- Concrete instance for C7: recording cache, non-positive `maxAge`. -/
def recNoExpCfg : Config (List (String × CVal Nat × Option Int)) Unit Nat :=
  memoizy (fun _ => FnRet.val 1)
    { impl := recCache Nat
      maxAge := some (-5)
      cacheKey := ckU
      valueAccept := none
      cacheHandlesExpiration := true }

/-- Claim C7, witnessed on the recording cache: the stored record carries the
expiration `100` as third argument in the cache-handled case and no expiration
argument in the non-positive case, with no timer scheduled either way. -/
theorem claim_C7_witness :
    (setOp recExpCfg (freshSt []) "k" (CVal.v 1)).cacheSt
      = [("k", CVal.v 1, some 100)]
    ∧ (setOp recExpCfg (freshSt []) "k" (CVal.v 1)).timers = []
    ∧ (setOp recNoExpCfg (freshSt []) "k" (CVal.v 1)).cacheSt
        = [("k", CVal.v 1, none)]
    ∧ (setOp recNoExpCfg (freshSt []) "k" (CVal.v 1)).timers = [] := by
  have h1 := (claim_C7 recExpCfg (freshSt []) "k" (CVal.v 1)).1 100 rfl rfl (by decide)
  have h2 := (claim_C7 recNoExpCfg (freshSt []) "k" (CVal.v 1)).2 (by decide)
  exact ⟨by rw [h1]; rfl, by rw [h1]; rfl, by rw [h2]; rfl, by rw [h2]; rfl⟩

/-- Claim C8: the default cache-key function is deterministic, maps the empty
argument tuple to the fixed sentinel `"__0aritykey__"`, maps equal non-empty
tuples to equal keys, and is type-sensitive: `(1, "a")` and `("1", "a")`
serialize to different keys. -/
theorem claim_C8 :
    defaultCacheKeyBuilder JArr.nil = "__0aritykey__"
    ∧ (∀ a b : JArr, a = b → defaultCacheKeyBuilder a = defaultCacheKeyBuilder b)
    ∧ defaultCacheKeyBuilder
        (JArr.cons (JVal.jnum 1) (JArr.cons (JVal.jstr "a") JArr.nil))
        = defaultCacheKeyBuilder
            (JArr.cons (JVal.jnum 1) (JArr.cons (JVal.jstr "a") JArr.nil))
    ∧ defaultCacheKeyBuilder
        (JArr.cons (JVal.jnum 1) (JArr.cons (JVal.jstr "a") JArr.nil))
        ≠ defaultCacheKeyBuilder
            (JArr.cons (JVal.jstr "1") (JArr.cons (JVal.jstr "a") JArr.nil)) := by
  refine ⟨rfl, ?_, rfl, ?_⟩
  · intro a b h
    rw [h]
  · decide

/-- Claim C8, witnessed: determinism applied at a concrete tuple. -/
theorem claim_C8_witness :
    defaultCacheKeyBuilder (JArr.cons (JVal.jnum 1) JArr.nil)
      = defaultCacheKeyBuilder (JArr.cons (JVal.jnum 1) JArr.nil) :=
  claim_C8.2.1 (JArr.cons (JVal.jnum 1) JArr.nil) (JArr.cons (JVal.jnum 1) JArr.nil) rfl

/-- Claim C9: the curried adapter applied to both configuration and function
produces exactly the instance the Memoizer produces with the arguments
swapped, and applied to configuration alone yields a closure that, once given
the function, produces that same instance. -/
theorem claim_C9 {σ ι α : Type} (o : Opts σ ι α) (f : ι → FnRet α) :
    fp [FpArg.opts o, FpArg.func f] = some (CurryOut.result (memoizy f o))
    ∧ ∃ pend, fp [FpArg.opts o] = some (CurryOut.closure pend)
        ∧ curryInvoke (CurryOut.closure pend) [FpArg.func f]
            = some (CurryOut.result (memoizy f o)) :=
  ⟨rfl, [FpArg.opts o], rfl, rfl⟩

end Memoizy
